import Mathlib

/-!
Verification of the mmpolicy library: the policy document model and
serializer (`types.rs`, `write.rs`) and the execution orchestrator
(`run.rs`), embedded shallowly.  File-system and process interactions are
modelled by an explicit environment and an effect trace.
-/

set_option maxHeartbeats 1000000

namespace Mmpolicy

/-- Components of a file-system path, mirroring the component structure of
Rust std paths on Unix: normal components, the current-directory component
and the parent-directory component. -/
inductive Component
  | normal (s : String)
  | curDir
  | parentDir
deriving DecidableEq

/-- A file-system path: whether it is absolute, plus its components. -/
structure PathM where
  absolute : Bool
  components : List Component
deriving DecidableEq

/-- The Rust Path file_name operation: the final component of the path when
that component is a normal one, and none otherwise (root, empty path, or a
path ending in a dot or parent component). -/
def PathM.fileName (p : PathM) : Option String :=
  match p.components.getLast? with
  | some (Component.normal s) => some s
  | _ => none

/-- The Rust Path join operation, for a relative single-component argument
(the only shape `Policy::run` passes): push the new component. -/
def PathM.join (p : PathM) (s : String) : PathM :=
  { p with components := p.components ++ [Component.normal s] }

/-- The Rust Path with_file_name operation: pop the final component when it
is a file name, then push the new one; when the path has no file name the
new component is simply pushed. -/
def PathM.withFileName (p : PathM) (s : String) : PathM :=
  match p.fileName with
  | some _ => { p with components := p.components.dropLast ++ [Component.normal s] }
  | none => { p with components := p.components ++ [Component.normal s] }

/-- Name for entities (`types.rs`). -/
structure Name where
  v : String
deriving DecidableEq

/-- Execution for certain rule types (`types.rs`). -/
structure Exec where
  v : String
deriving DecidableEq

/-- Whether to apply the policy to all objects, not just regular files. -/
structure DirectoriesPlus where
  v : Bool
deriving DecidableEq

/-- Attributes to show (`types.rs`). -/
inductive Show
  | Mode
  | Nlink
  | FileSize
  | KbAllocated
deriving DecidableEq

/-- Filter (`types.rs`): by numeric group id or numeric user id. -/
inductive Where
  | Group (g : Nat)
  | User (u : Nat)
deriving DecidableEq

/-- Ordered sequence of show attributes. -/
abbrev ShowList := List Show

/-- Policy rule types (`types.rs`). -/
inductive RuleType
  | ExternalList (name : Name) (exec : Exec)
  | List (name : Name) (directoriesPlus : DirectoriesPlus) (shows : ShowList)
      (filter : Option Where)
deriving DecidableEq

/-- Single policy rule: an optional label and a rule type (`types.rs`). -/
structure Rule where
  label : Option Name
  ruleType : RuleType
deriving DecidableEq

/-- Policy with rules (`types.rs`). -/
structure Policy where
  name : Name
  rules : List Rule

/-- The `Policy::new` constructor: an empty, named policy. -/
def Policy.new (name : String) : Policy :=
  { name := Name.mk name, rules := [] }

/-- The `Show::as_str` lookup table (`write.rs`). -/
def Show.as_str : Show → String
  | Show.Mode => "MODE"
  | Show.Nlink => "NLINK"
  | Show.FileSize => "FILE_SIZE"
  | Show.KbAllocated => "KB_ALLOCATED"

/-- The WHERE clause rendering from `RuleType::write` (`write.rs`). -/
def Where.render : Where → String
  | Where.Group g => "GROUP_ID = " ++ toString g
  | Where.User u => "USER_ID = " ++ toString u

/-- The Rust slice join operation: elements separated by the separator. -/
def joinSep (sep : String) : List String → String
  | [] => ""
  | [a] => a
  | a :: rest => a ++ sep ++ joinSep sep rest

/-- The argument of the SHOW line: each attribute keyword wrapped in
VARCHAR, joined with the fixed separator (`write.rs`). -/
def showJoin (shows : ShowList) : String :=
  joinSep (" || ' ' || ") (shows.map fun s => "VARCHAR(" ++ s.as_str ++ ")")

/-- A sequence of output lines. -/
abbrev StringList := List String

/-- The lines emitted by `RuleType::write` (`write.rs`), one list element
per writeln call. -/
def RuleType.lines : RuleType → StringList
  | RuleType.ExternalList name exec =>
      ["  EXTERNAL LIST '" ++ name.v ++ "'", "  EXEC '" ++ exec.v ++ "'"]
  | RuleType.List name dp shows filter =>
      ["  LIST '" ++ name.v ++ "'"]
      ++ (if dp.v then ["  DIRECTORIES_PLUS"] else [])
      ++ (if !shows.isEmpty then ["  SHOW(" ++ showJoin shows ++ ")"] else [])
      ++ (match filter with
          | some w => ["  WHERE " ++ w.render]
          | none => [])

/-- The lines emitted by `Rule::write` (`write.rs`): the RULE header, with
the quoted label when present, followed by the rule-type lines. -/
def Rule.lines (r : Rule) : List String :=
  (match r.label with
   | some name => "RULE '" ++ name.v ++ "'"
   | none => "RULE") :: r.ruleType.lines

/-- Join lines, each terminated by a newline, as successive writeln calls
do. -/
def unlines : List String → String
  | [] => ""
  | l :: ls => l ++ "\n" ++ unlines ls

/-- The text emitted by `Rule::write`. -/
def Rule.write (r : Rule) : String := unlines r.lines

/-- The loop of `Policy::write` (`write.rs`): an empty separator line is
written before every rule except the first. -/
def writeRulesLoop : Bool → List Rule → String
  | _, [] => ""
  | first, r :: rs => (if first then "" else "\n") ++ r.write ++ writeRulesLoop false rs

/-- The text emitted by `Policy::write` (`write.rs`). -/
def Policy.write (p : Policy) : String := writeRulesLoop true p.rules

/-- Options for running mmapplypolicy (`run.rs`). -/
structure Options where
  choice_algorithm : Option String := none
  nodes : Option String := none
  local_work_dir : Option PathM := none
  global_work_dir : Option PathM := none
  action : Option String := none
  information_level : Option String := none
deriving DecidableEq

/-- An underlying I/O error, carrying its rendered message. -/
structure IOErr where
  msg : String
deriving DecidableEq

/-- Exit status of the external process: the Rust success flag and the
optional numeric exit code (absent e.g. on signal death). -/
structure ExitStatus where
  success : Bool
  code : Option Int
deriving DecidableEq

/-- The error enumeration of `run.rs`. -/
inductive RunError
  | ApplyPolicy (phase : String) (cause : IOErr)
  | ApplyPolicyFailed (msg : String)
  | CreatePolicyFile (path : PathM) (cause : IOErr)
  | InvalidFileListPrefix (msg : String)
  | WritePolicy (path : PathM) (cause : IOErr)
deriving DecidableEq

/-- One argument passed to the external command: a plain string or a path. -/
inductive Arg
  | str (s : String)
  | path (p : PathM)
deriving DecidableEq

/-- Configuration of the child's standard output stream: the default
(inherited), discarded, or forwarded to the parent's standard error. -/
inductive StdoutCfg
  | inherit
  | null
  | toStderr
deriving DecidableEq

/-- How `Policy::run` configures the child's standard output: it is only
touched inside the information-level branch (`run.rs` lines 100-108). -/
def stdoutConfig (options : Options) : StdoutCfg :=
  match options.information_level with
  | some level => if level = "0" then StdoutCfg.null else StdoutCfg.toStderr
  | none => StdoutCfg.inherit

/-- The argument list built by `Policy::run`, one conditional block per
option, in source order (`run.rs` lines 92-130). -/
def buildArgs (devOrDir : String) (policyPath : PathM) (fileListPfx : Option PathM)
    (options : Options) : List Arg :=
  let args := [Arg.str devOrDir, Arg.str ("-P"), Arg.path policyPath]
  let args := match options.action with
    | some action => args ++ [Arg.str ("-I"), Arg.str action]
    | none => args
  let args := match options.information_level with
    | some level => args ++ [Arg.str ("-L"), Arg.str level]
    | none => args
  let args := match options.choice_algorithm with
    | some c => args ++ [Arg.str ("--choice-algorithm"), Arg.str c]
    | none => args
  let args := match fileListPfx with
    | some q => args ++ [Arg.str ("-f"), Arg.path q]
    | none => args
  let args := match options.nodes with
    | some nodes => args ++ [Arg.str ("-N"), Arg.str nodes]
    | none => args
  let args := match options.local_work_dir with
    | some d => args ++ [Arg.str ("-s"), Arg.path d]
    | none => args
  let args := match options.global_work_dir with
    | some d => args ++ [Arg.str ("-g"), Arg.path d]
    | none => args
  args

/-- Observable side effects performed by one `run` call, in order. -/
inductive Effect
  | createFile (p : PathM)
  | writePolicy (p : PathM) (contents : String)
  | spawn (args : List Arg) (stdout : StdoutCfg)
  | wait
deriving DecidableEq

/-- Abstraction of the file system and process environment one `run` call
interacts with.  `isDirPre` answers the is_dir query made during
validation, `isDirPost` the one made during report-path derivation; the
directory may appear or vanish while the external process runs, so the two
are independent.  The remaining fields give the outcomes of file creation,
policy writing, spawning, and waiting. -/
structure RunEnv where
  isDirPre : PathM → Bool
  createResult : Option IOErr
  writeResult : Option IOErr
  spawnResult : Option IOErr
  waitResult : Except IOErr ExitStatus
  isDirPost : PathM → Bool

/-- Names of the ExternalList rules of a rule list, in rule order. -/
def externalListNames (rules : List Rule) : List String :=
  rules.filterMap fun rule =>
    match rule.ruleType with
    | RuleType.ExternalList name _ => some name.v
    | RuleType.List _ _ _ _ => none

/-- The per-rule body of the report filter_map in `Policy::run` (`run.rs`
lines 150-171): an ExternalList rule maps the optional prefix to a report
path (directory join, or sibling file from the file-name stem with the
policy name as fallback); a List rule contributes none. -/
def reportFor (polName : String) (fileListPfx : Option PathM) (isDir : PathM → Bool)
    (rule : Rule) : Option PathM :=
  match rule.ruleType with
  | RuleType.ExternalList name _ =>
      fileListPfx.map fun q =>
        if isDir q then q.join ("list." ++ name.v)
        else q.withFileName ((q.fileName.getD polName) ++ ".list." ++ name.v)
  | RuleType.List _ _ _ _ => none

/-- `Policy::run` (`run.rs`): prefix validation, policy-file creation and
writing, command construction, spawn, wait, and then either report-path
derivation or the failure message.  Returns the result together with the
trace of performed effects. -/
def Policy.run (p : Policy) (devOrDir : String) (policyPath : PathM)
    (fileListPfx : Option PathM) (options : Options) (env : RunEnv) :
    Except RunError (List PathM) × List Effect :=
  if (fileListPfx.map fun q => !env.isDirPre q && q.fileName.isNone).getD false then
    (Except.error (RunError.InvalidFileListPrefix
      ("prefix needs to be either an existing directory or have a file name component in its path")),
     [])
  else
    match env.createResult with
    | some e => (Except.error (RunError.CreatePolicyFile policyPath e),
                 [Effect.createFile policyPath])
    | none =>
      match env.writeResult with
      | some e => (Except.error (RunError.WritePolicy policyPath e),
                   [Effect.createFile policyPath, Effect.writePolicy policyPath p.write])
      | none =>
        let trace := [Effect.createFile policyPath,
                      Effect.writePolicy policyPath p.write,
                      Effect.spawn (buildArgs devOrDir policyPath fileListPfx options)
                        (stdoutConfig options)]
        match env.spawnResult with
        | some e => (Except.error (RunError.ApplyPolicy ("`mmapplypolicy` failed to start") e),
                     trace)
        | none =>
          match env.waitResult with
          | Except.error e =>
              (Except.error (RunError.ApplyPolicy ("failed waiting on `mmapplypolicy`") e),
               trace ++ [Effect.wait])
          | Except.ok status =>
            if status.success then
              (Except.ok (p.rules.filterMap (reportFor p.name.v fileListPfx env.isDirPost)),
               trace ++ [Effect.wait])
            else
              (Except.error (RunError.ApplyPolicyFailed
                ("`mmapplypolicy` failed" ++
                  (match status.code with
                   | some rc => " with exit status " ++ toString rc
                   | none => ""))),
               trace ++ [Effect.wait])

/-- Modelled from the claim wording of the command line: positional target,
then the policy-path switch, then the optional switches in the claimed
order, each present exactly when its value is. -/
def argsSpec (devOrDir : String) (policyPath : PathM) (fileListPfx : Option PathM)
    (options : Options) : List Arg :=
  [Arg.str devOrDir, Arg.str ("-P"), Arg.path policyPath]
  ++ (match options.action with
      | some action => [Arg.str ("-I"), Arg.str action]
      | none => [])
  ++ (match options.information_level with
      | some level => [Arg.str ("-L"), Arg.str level]
      | none => [])
  ++ (match options.choice_algorithm with
      | some c => [Arg.str ("--choice-algorithm"), Arg.str c]
      | none => [])
  ++ (match fileListPfx with
      | some q => [Arg.str ("-f"), Arg.path q]
      | none => [])
  ++ (match options.nodes with
      | some nodes => [Arg.str ("-N"), Arg.str nodes]
      | none => [])
  ++ (match options.local_work_dir with
      | some d => [Arg.str ("-s"), Arg.path d]
      | none => [])
  ++ (match options.global_work_dir with
      | some d => [Arg.str ("-g"), Arg.path d]
      | none => [])

/-- Modelled from the claim wording of `Policy::write`: rule renderings in
order, with exactly one separator line between consecutive rules and none
at either end. -/
def sepJoin : List String → String
  | [] => ""
  | [s] => s
  | s :: rest => s ++ "\n" ++ sepJoin rest

/-- Probe of the third character of a line; the serializer's body-line
shapes differ there whatever the embedded name strings are. -/
def thirdChar (s : String) : Option Char := (s.data.drop 2).head?

theorem thirdChar_listLine (s t : String) :
    thirdChar ("  LIST '" ++ s ++ t) = some ('L') := rfl

theorem thirdChar_dirsLine : thirdChar ("  DIRECTORIES_PLUS") = some ('D') := rfl

theorem thirdChar_showLine (s : String) :
    thirdChar ("  SHOW(" ++ s) = some ('S') := rfl

theorem thirdChar_showLine2 (s t : String) :
    thirdChar ("  SHOW(" ++ s ++ t) = some ('S') := rfl

theorem thirdChar_whereLine (s : String) :
    thirdChar ("  WHERE " ++ s) = some ('W') := rfl

theorem thirdChar_ne {a b : String} {c d : Char} (ha : thirdChar a = some c)
    (hb : thirdChar b = some d) (hcd : c ≠ d) : a ≠ b := by
  intro h
  rw [h, hb] at ha
  exact hcd (Option.some.inj ha).symm

/-- Characterization of the lines of a serialized List rule: each member is
the LIST header, the conditional DIRECTORIES_PLUS line, the conditional
SHOW line, or the conditional WHERE line. -/
theorem mem_listRule_lines {x : String} {name : Name} {dp : DirectoriesPlus}
    {shows : ShowList} {filter : Option Where}
    (hx : x ∈ (RuleType.List name dp shows filter).lines) :
    x = "  LIST '" ++ name.v ++ "'"
    ∨ (x = "  DIRECTORIES_PLUS" ∧ dp.v = true)
    ∨ (x = "  SHOW(" ++ showJoin shows ++ ")" ∧ shows ≠ [])
    ∨ (∃ w, x = "  WHERE " ++ w.render ∧ filter = some w) := by
  obtain ⟨dv⟩ := dp
  cases shows <;> cases dv <;> rcases filter with _ | w <;>
    simp [RuleType.lines] at hx <;> tauto

theorem unlines_ends {ls : List String} (h : ls ≠ []) :
    ∃ s, unlines ls = s ++ "\n" := by
  induction ls with
  | nil => exact absurd rfl h
  | cons l ls ih =>
    cases ls with
    | nil => exact ⟨l, by simp [unlines]⟩
    | cons m ms =>
      obtain ⟨s, hs⟩ := ih (by simp)
      refine ⟨l ++ "\n" ++ s, ?_⟩
      have h0 : unlines (l :: m :: ms) = l ++ "\n" ++ unlines (m :: ms) := rfl
      rw [h0, hs]
      exact (String.append_assoc (l ++ "\n") s ("\n")).symm

theorem rule_lines_ne_nil (r : Rule) : r.lines ≠ [] := by
  simp [Rule.lines]

theorem rule_write_starts (r : Rule) : ∃ s, r.write = "RULE" ++ s := by
  rcases r with ⟨lab, rt⟩
  cases lab with
  | none =>
    refine ⟨"\n" ++ unlines rt.lines, ?_⟩
    have h0 : Rule.write (Rule.mk none rt) = "RULE" ++ "\n" ++ unlines rt.lines := rfl
    rw [h0]
    simp only [String.append_assoc]
  | some n =>
    refine ⟨" '" ++ n.v ++ "'" ++ "\n" ++ unlines rt.lines, ?_⟩
    have h0 : Rule.write (Rule.mk (some n) rt)
        = "RULE '" ++ n.v ++ "'" ++ "\n" ++ unlines rt.lines := rfl
    have h1 : ("RULE '" : String) = "RULE" ++ " '" := rfl
    rw [h0, h1]
    simp only [String.append_assoc]

theorem rule_write_ends (r : Rule) : ∃ s, r.write = s ++ "\n" :=
  unlines_ends (rule_lines_ne_nil r)

theorem writeRulesLoop_false (r : Rule) (rs : List Rule) :
    writeRulesLoop false (r :: rs) = "\n" ++ writeRulesLoop true (r :: rs) := by
  simp [writeRulesLoop, String.append_assoc]

theorem writeRulesLoop_eq_sepJoin (rs : List Rule) :
    writeRulesLoop true rs = sepJoin (rs.map Rule.write) := by
  induction rs with
  | nil => rfl
  | cons r rs ih =>
    cases rs with
    | nil => simp [writeRulesLoop, sepJoin]
    | cons r2 rs2 =>
      calc writeRulesLoop true (r :: r2 :: rs2)
          = r.write ++ writeRulesLoop false (r2 :: rs2) := by
            simp [writeRulesLoop, String.append_assoc]
        _ = r.write ++ ("\n" ++ sepJoin ((r2 :: rs2).map Rule.write)) := by
            rw [writeRulesLoop_false, ih]
        _ = sepJoin ((r :: r2 :: rs2).map Rule.write) := by
            simp [sepJoin, String.append_assoc]

/-- Claim C3: `Policy::write` emits the renderings of the rules in order
with exactly one separator newline between consecutive rules and no leading
or trailing blank line: the output is the rule renderings joined by one
empty line, a policy with zero rules serializes to empty output, and every
rule rendering starts with the RULE header and ends with a newline. -/
theorem claim_C3 (p : Policy) :
    p.write = sepJoin (p.rules.map Rule.write)
    ∧ (p.rules = [] → p.write = "")
    ∧ (∀ r : Rule, (∃ s, r.write = "RULE" ++ s) ∧ (∃ s, r.write = s ++ "\n")) := by
  refine ⟨writeRulesLoop_eq_sepJoin p.rules, ?_, ?_⟩
  · intro h
    simp [Policy.write, h, writeRulesLoop]
  · intro r
    exact ⟨rule_write_starts r, rule_write_ends r⟩

theorem claim_C3_witness :
    (Policy.new ("size")).write = sepJoin ((Policy.new ("size")).rules.map Rule.write)
    ∧ ((Policy.new ("size")).rules = [] → (Policy.new ("size")).write = "")
    ∧ (∀ r : Rule, (∃ s, r.write = "RULE" ++ s) ∧ (∃ s, r.write = s ++ "\n")) :=
  claim_C3 (Policy.new ("size"))

/-- Claim C4: for every List rule the serializer emits a SHOW line iff the
show sequence is non-empty; the line wraps each attribute's fixed keyword
in VARCHAR, in input order, joined by the fixed separator; the keyword
table is Mode to MODE, Nlink to NLINK, FileSize to FILE_SIZE, KbAllocated
to KB_ALLOCATED; and the two-attribute example renders as stated. -/
theorem claim_C4 (name : Name) (dp : DirectoriesPlus) (shows : ShowList)
    (filter : Option Where) :
    (shows ≠ [] →
      ("  SHOW(" ++ showJoin shows ++ ")") ∈ (RuleType.List name dp shows filter).lines)
    ∧ (shows = [] →
      ∀ s, ("  SHOW(" ++ s) ∉ (RuleType.List name dp shows filter).lines)
    ∧ (∀ a rest, showJoin (a :: rest) =
        "VARCHAR(" ++ a.as_str ++ ")"
        ++ (if rest = [] then "" else " || ' ' || " ++ showJoin rest))
    ∧ (Show.as_str Show.Mode = "MODE" ∧ Show.as_str Show.Nlink = "NLINK"
        ∧ Show.as_str Show.FileSize = "FILE_SIZE"
        ∧ Show.as_str Show.KbAllocated = "KB_ALLOCATED")
    ∧ ("  SHOW(" ++ showJoin [Show.Mode, Show.Nlink] ++ ")"
        = "  SHOW(VARCHAR(MODE) || ' ' || VARCHAR(NLINK))") := by
  refine ⟨?_, fun hs s hmem => ?_, ?_, ⟨rfl, rfl, rfl, rfl⟩, by decide⟩
  · intro h
    have hne : shows.isEmpty = false := by
      cases shows with
      | nil => exact absurd rfl h
      | cons a as => rfl
    simp [RuleType.lines, hne]
  · have hL : ("  SHOW(" ++ s) ≠ "  LIST '" ++ name.v ++ "'" :=
      thirdChar_ne (thirdChar_showLine s) (thirdChar_listLine name.v ("'")) (by decide)
    have hD : ("  SHOW(" ++ s) ≠ "  DIRECTORIES_PLUS" :=
      thirdChar_ne (thirdChar_showLine s) thirdChar_dirsLine (by decide)
    rcases mem_listRule_lines hmem with h | ⟨h, _⟩ | ⟨_, hne⟩ | ⟨w, h, _⟩
    · exact hL h
    · exact hD h
    · exact hne hs
    · exact thirdChar_ne (thirdChar_showLine s) (thirdChar_whereLine w.render)
        (by decide) h
  · intro a rest
    cases rest with
    | nil => simp [showJoin, joinSep]
    | cons b bs =>
      rw [if_neg (List.cons_ne_nil b bs)]
      simp only [showJoin, List.map_cons, joinSep, String.append_assoc]

theorem claim_C4_witness :
    (([Show.Mode, Show.Nlink] : ShowList) ≠ [] →
      ("  SHOW(" ++ showJoin [Show.Mode, Show.Nlink] ++ ")")
        ∈ (RuleType.List (Name.mk ("size")) (DirectoriesPlus.mk true)
            [Show.Mode, Show.Nlink] none).lines)
    ∧ (([Show.Mode, Show.Nlink] : ShowList) = [] →
      ∀ s, ("  SHOW(" ++ s) ∉ (RuleType.List (Name.mk ("size"))
            (DirectoriesPlus.mk true) [Show.Mode, Show.Nlink] none).lines)
    ∧ (∀ a rest, showJoin (a :: rest) =
        "VARCHAR(" ++ a.as_str ++ ")"
        ++ (if rest = [] then "" else " || ' ' || " ++ showJoin rest))
    ∧ (Show.as_str Show.Mode = "MODE" ∧ Show.as_str Show.Nlink = "NLINK"
        ∧ Show.as_str Show.FileSize = "FILE_SIZE"
        ∧ Show.as_str Show.KbAllocated = "KB_ALLOCATED")
    ∧ ("  SHOW(" ++ showJoin [Show.Mode, Show.Nlink] ++ ")"
        = "  SHOW(VARCHAR(MODE) || ' ' || VARCHAR(NLINK))") :=
  claim_C4 (Name.mk ("size")) (DirectoriesPlus.mk true) [Show.Mode, Show.Nlink] none

/-- Claim C5: for every List rule the serializer emits the
DIRECTORIES_PLUS line iff the flag is true, and emits a WHERE line iff a
filter is present, rendering the group id for a group filter and the user
id for a user filter. -/
theorem claim_C5 (name : Name) (dp : DirectoriesPlus) (shows : ShowList)
    (filter : Option Where) :
    (("  DIRECTORIES_PLUS") ∈ (RuleType.List name dp shows filter).lines ↔ dp.v = true)
    ∧ (∀ w, filter = some w →
        ("  WHERE " ++ w.render) ∈ (RuleType.List name dp shows filter).lines)
    ∧ (filter = none →
        ∀ s, ("  WHERE " ++ s) ∉ (RuleType.List name dp shows filter).lines)
    ∧ (∀ g, Where.render (Where.Group g) = "GROUP_ID = " ++ toString g)
    ∧ (∀ u, Where.render (Where.User u) = "USER_ID = " ++ toString u) := by
  refine ⟨⟨fun hmem => ?_, fun hdp => ?_⟩, fun w hw => ?_, fun hf s hmem => ?_,
    fun g => rfl, fun u => rfl⟩
  · rcases mem_listRule_lines hmem with h | ⟨_, hv⟩ | ⟨h, _⟩ | ⟨w, h, _⟩
    · exact absurd h.symm
        (thirdChar_ne (thirdChar_listLine name.v ("'")) thirdChar_dirsLine (by decide))
    · exact hv
    · exact absurd h.symm
        (thirdChar_ne (thirdChar_showLine2 (showJoin shows) (")")) thirdChar_dirsLine
          (by decide))
    · exact absurd h.symm
        (thirdChar_ne (thirdChar_whereLine w.render) thirdChar_dirsLine (by decide))
  · simp [RuleType.lines, hdp]
  · subst hw
    simp [RuleType.lines]
  · subst hf
    rcases mem_listRule_lines hmem with h | ⟨h, _⟩ | ⟨h, _⟩ | ⟨w, _, hw⟩
    · exact thirdChar_ne (thirdChar_whereLine s) (thirdChar_listLine name.v ("'"))
        (by decide) h
    · exact thirdChar_ne (thirdChar_whereLine s) thirdChar_dirsLine (by decide) h
    · exact thirdChar_ne (thirdChar_whereLine s)
        (thirdChar_showLine2 (showJoin shows) (")")) (by decide) h
    · exact Option.noConfusion hw

theorem buildArgs_eq_argsSpec (devOrDir : String) (policyPath : PathM)
    (fileListPfx : Option PathM) (options : Options) :
    buildArgs devOrDir policyPath fileListPfx options
      = argsSpec devOrDir policyPath fileListPfx options := by
  rcases options with ⟨ca, no, lw, gw, ac, il⟩
  cases ac <;> cases il <;> cases ca <;> cases fileListPfx <;> cases no <;>
    cases lw <;> cases gw <;> rfl

theorem externalListNames_cons_ext (lab : Option Name) (name : Name) (e : Exec)
    (rs : List Rule) :
    externalListNames (Rule.mk lab (RuleType.ExternalList name e) :: rs)
      = name.v :: externalListNames rs := by
  simp [externalListNames, List.filterMap_cons]

theorem externalListNames_cons_list (lab : Option Name) (name : Name)
    (dp : DirectoriesPlus) (shows : ShowList) (filter : Option Where) (rs : List Rule) :
    externalListNames (Rule.mk lab (RuleType.List name dp shows filter) :: rs)
      = externalListNames rs := by
  simp [externalListNames, List.filterMap_cons]

theorem filterMap_reportFor_none (polName : String) (isDir : PathM → Bool)
    (rules : List Rule) :
    rules.filterMap (reportFor polName none isDir) = [] := by
  simp only [List.filterMap_eq_nil_iff]
  intro r _
  rcases r with ⟨lab, rt⟩
  cases rt <;> simp [reportFor]

theorem filterMap_reportFor_eq_map (polName : String) (fileListPfx : Option PathM)
    (isDir : PathM → Bool) (g : String → PathM)
    (hg : ∀ name : Name, (fileListPfx.map fun q =>
        if isDir q then q.join ("list." ++ name.v)
        else q.withFileName ((q.fileName.getD polName) ++ ".list." ++ name.v))
      = some (g name.v))
    (rules : List Rule) :
    rules.filterMap (reportFor polName fileListPfx isDir)
      = (externalListNames rules).map g := by
  induction rules with
  | nil => rfl
  | cons r rs ih =>
    rcases r with ⟨lab, rt⟩
    cases rt with
    | ExternalList name e =>
      rw [externalListNames_cons_ext, List.map_cons, ← ih]
      simp [List.filterMap_cons, reportFor, hg name]
    | List nm dp shows filter =>
      rw [externalListNames_cons_list, ← ih]
      simp [List.filterMap_cons, reportFor]

theorem run_success (p : Policy) (devOrDir : String) (policyPath : PathM)
    (fileListPfx : Option PathM) (options : Options) (env : RunEnv) (st : ExitStatus)
    (hv : (fileListPfx.map fun q => !env.isDirPre q && q.fileName.isNone).getD false = false)
    (hc : env.createResult = none) (hw : env.writeResult = none)
    (hs : env.spawnResult = none) (hwait : env.waitResult = Except.ok st)
    (hsucc : st.success = true) :
    Policy.run p devOrDir policyPath fileListPfx options env
      = (Except.ok (p.rules.filterMap (reportFor p.name.v fileListPfx env.isDirPost)),
         [Effect.createFile policyPath, Effect.writePolicy policyPath p.write,
          Effect.spawn (buildArgs devOrDir policyPath fileListPfx options)
            (stdoutConfig options), Effect.wait]) := by
  simp [Policy.run, hv, hc, hw, hs, hwait, hsucc]

theorem run_failed_code (p : Policy) (devOrDir : String) (policyPath : PathM)
    (fileListPfx : Option PathM) (options : Options) (env : RunEnv) (st : ExitStatus)
    (rc : Int)
    (hv : (fileListPfx.map fun q => !env.isDirPre q && q.fileName.isNone).getD false = false)
    (hc : env.createResult = none) (hw : env.writeResult = none)
    (hs : env.spawnResult = none) (hwait : env.waitResult = Except.ok st)
    (hfail : st.success = false) (hcode : st.code = some rc) :
    Policy.run p devOrDir policyPath fileListPfx options env
      = (Except.error (RunError.ApplyPolicyFailed
          ("`mmapplypolicy` failed" ++ (" with exit status " ++ toString rc))),
         [Effect.createFile policyPath, Effect.writePolicy policyPath p.write,
          Effect.spawn (buildArgs devOrDir policyPath fileListPfx options)
            (stdoutConfig options), Effect.wait]) := by
  simp [Policy.run, hv, hc, hw, hs, hwait, hfail, hcode]

theorem run_failed_nocode (p : Policy) (devOrDir : String) (policyPath : PathM)
    (fileListPfx : Option PathM) (options : Options) (env : RunEnv) (st : ExitStatus)
    (hv : (fileListPfx.map fun q => !env.isDirPre q && q.fileName.isNone).getD false = false)
    (hc : env.createResult = none) (hw : env.writeResult = none)
    (hs : env.spawnResult = none) (hwait : env.waitResult = Except.ok st)
    (hfail : st.success = false) (hcode : st.code = none) :
    Policy.run p devOrDir policyPath fileListPfx options env
      = (Except.error (RunError.ApplyPolicyFailed ("`mmapplypolicy` failed")),
         [Effect.createFile policyPath, Effect.writePolicy policyPath p.write,
          Effect.spawn (buildArgs devOrDir policyPath fileListPfx options)
            (stdoutConfig options), Effect.wait]) := by
  simp [Policy.run, hv, hc, hw, hs, hwait, hfail, hcode]

theorem spawn_mem_trace (p : Policy) (devOrDir : String) (policyPath : PathM)
    (fileListPfx : Option PathM) (options : Options) (env : RunEnv)
    (hv : (fileListPfx.map fun q => !env.isDirPre q && q.fileName.isNone).getD false = false)
    (hc : env.createResult = none) (hw : env.writeResult = none) :
    Effect.spawn (buildArgs devOrDir policyPath fileListPfx options) (stdoutConfig options)
      ∈ (Policy.run p devOrDir policyPath fileListPfx options env).snd := by
  cases hsp : env.spawnResult with
  | some e => simp [Policy.run, hv, hc, hw, hsp]
  | none =>
    cases hwt : env.waitResult with
    | error e => simp [Policy.run, hv, hc, hw, hsp, hwt]
    | ok st =>
      cases hst : st.success with
      | false => simp [Policy.run, hv, hc, hw, hsp, hwt, hst]
      | true => simp [Policy.run, hv, hc, hw, hsp, hwt, hst]

/-- Claim C1: on a successful external-process run (with the prefix's
directory status unchanged across the run), `Policy::run` returns exactly
one report path per ExternalList rule, in rule order: under a directory
prefix the path joined with the list file name, otherwise the sibling file
built by replacing the prefix's final component; with no prefix the result
is empty, and List rules contribute nothing. -/
theorem claim_C1 (p : Policy) (devOrDir : String) (policyPath : PathM)
    (fileListPfx : Option PathM) (options : Options) (env : RunEnv) (st : ExitStatus)
    (hfs : env.isDirPre = env.isDirPost)
    (hc : env.createResult = none) (hw : env.writeResult = none)
    (hs : env.spawnResult = none) (hwait : env.waitResult = Except.ok st)
    (hsucc : st.success = true) :
    (fileListPfx = none →
      (Policy.run p devOrDir policyPath fileListPfx options env).fst = Except.ok [])
    ∧ (∀ q, fileListPfx = some q → env.isDirPost q = true →
      (Policy.run p devOrDir policyPath fileListPfx options env).fst
        = Except.ok ((externalListNames p.rules).map fun n => q.join ("list." ++ n)))
    ∧ (∀ q stem, fileListPfx = some q → env.isDirPost q = false →
        q.fileName = some stem →
      (Policy.run p devOrDir policyPath fileListPfx options env).fst
        = Except.ok ((externalListNames p.rules).map fun n =>
            q.withFileName (stem ++ ".list." ++ n))) := by
  refine ⟨?_, ?_, ?_⟩
  · rintro rfl
    rw [run_success p devOrDir policyPath none options env st rfl hc hw hs hwait hsucc]
    exact congrArg Except.ok (filterMap_reportFor_none p.name.v env.isDirPost p.rules)
  · rintro q rfl hdir
    have hv : ((some q).map fun q' => !env.isDirPre q' && q'.fileName.isNone).getD false
        = false := by simp [hfs, hdir]
    rw [run_success p devOrDir policyPath (some q) options env st hv hc hw hs hwait hsucc]
    exact congrArg Except.ok (filterMap_reportFor_eq_map p.name.v (some q) env.isDirPost
      (fun n => q.join ("list." ++ n)) (fun name => by simp [hdir]) p.rules)
  · rintro q stem rfl hdir hstem
    have hv : ((some q).map fun q' => !env.isDirPre q' && q'.fileName.isNone).getD false
        = false := by simp [hfs, hdir, hstem]
    rw [run_success p devOrDir policyPath (some q) options env st hv hc hw hs hwait hsucc]
    exact congrArg Except.ok (filterMap_reportFor_eq_map p.name.v (some q) env.isDirPost
      (fun n => q.withFileName (stem ++ ".list." ++ n))
      (fun name => by simp [hdir, hstem]) p.rules)

/-- Claim C2: a provided report prefix that is not an existing directory
and has no file-name component makes `run` return the InvalidFileListPrefix
error immediately, with no effect performed; a prefix that is a directory
or has a file-name component never produces this error. -/
theorem claim_C2 (p : Policy) (devOrDir : String) (policyPath : PathM)
    (fileListPfx : Option PathM) (options : Options) (env : RunEnv) :
    (∀ q, fileListPfx = some q → env.isDirPre q = false → q.fileName = none →
      Policy.run p devOrDir policyPath fileListPfx options env
        = (Except.error (RunError.InvalidFileListPrefix
            ("prefix needs to be either an existing directory or have a file name component in its path")),
           []))
    ∧ (∀ q, fileListPfx = some q → (env.isDirPre q = true ∨ q.fileName ≠ none) →
      ∀ s, (Policy.run p devOrDir policyPath fileListPfx options env).fst
        ≠ Except.error (RunError.InvalidFileListPrefix s)) := by
  constructor
  · rintro q rfl hdir hfile
    simp [Policy.run, hdir, hfile]
  · rintro q rfl hor s hbad
    have hcond : ¬(env.isDirPre q = false ∧ q.fileName = none) := by
      rcases hor with hdir | hfn
      · rintro ⟨h1, _⟩
        rw [hdir] at h1
        cases h1
      · rintro ⟨_, h2⟩
        exact hfn h2
    rcases env with ⟨pre, cr, wr, sp, wt, post⟩
    cases cr with
    | some e => simp [Policy.run, hcond] at hbad
    | none =>
      cases wr with
      | some e => simp [Policy.run, hcond] at hbad
      | none =>
        cases sp with
        | some e => simp [Policy.run, hcond] at hbad
        | none =>
          cases wt with
          | error e => simp [Policy.run, hcond] at hbad
          | ok st =>
            cases hst : st.success with
            | false => simp [Policy.run, hcond, hst] at hbad
            | true => simp [Policy.run, hcond, hst] at hbad

/-- Claim C6: the external command line is the positional target, the
policy-file switch with its path, then the conditional switches in exactly
the claimed order, each emitted iff its value is present. -/
theorem claim_C6 (devOrDir : String) (policyPath : PathM)
    (fileListPfx : Option PathM) (options : Options) :
    buildArgs devOrDir policyPath fileListPfx options
      = argsSpec devOrDir policyPath fileListPfx options :=
  buildArgs_eq_argsSpec devOrDir policyPath fileListPfx options

/-- Claim C7: with a configured information level, the child's standard
output is discarded exactly when the level is the literal string 0 and
otherwise forwarded to the parent's error stream, as recorded in the spawn
effect of the run. -/
theorem claim_C7 (p : Policy) (devOrDir : String) (policyPath : PathM)
    (fileListPfx : Option PathM) (options : Options) (env : RunEnv) (level : String)
    (hv : (fileListPfx.map fun q => !env.isDirPre q && q.fileName.isNone).getD false = false)
    (hc : env.createResult = none) (hw : env.writeResult = none)
    (hl : options.information_level = some level) :
    (stdoutConfig options = if level = "0" then StdoutCfg.null else StdoutCfg.toStderr)
    ∧ (level = "0" →
      Effect.spawn (buildArgs devOrDir policyPath fileListPfx options) StdoutCfg.null
        ∈ (Policy.run p devOrDir policyPath fileListPfx options env).snd)
    ∧ (level ≠ "0" →
      Effect.spawn (buildArgs devOrDir policyPath fileListPfx options) StdoutCfg.toStderr
        ∈ (Policy.run p devOrDir policyPath fileListPfx options env).snd) := by
  have hcfg : stdoutConfig options
      = if level = "0" then StdoutCfg.null else StdoutCfg.toStderr := by
    simp [stdoutConfig, hl]
  refine ⟨hcfg, fun h0 => ?_, fun h0 => ?_⟩
  · have hmem := spawn_mem_trace p devOrDir policyPath fileListPfx options env hv hc hw
    rwa [hcfg, if_pos h0] at hmem
  · have hmem := spawn_mem_trace p devOrDir policyPath fileListPfx options env hv hc hw
    rwa [hcfg, if_neg h0] at hmem

/-- Claim C8: when the external process exits unsuccessfully, `run` returns
the ApplyPolicyFailed error, whose message carries the numeric exit code
when one is available, and never returns report paths. -/
theorem claim_C8 (p : Policy) (devOrDir : String) (policyPath : PathM)
    (fileListPfx : Option PathM) (options : Options) (env : RunEnv) (st : ExitStatus)
    (hv : (fileListPfx.map fun q => !env.isDirPre q && q.fileName.isNone).getD false = false)
    (hc : env.createResult = none) (hw : env.writeResult = none)
    (hs : env.spawnResult = none) (hwait : env.waitResult = Except.ok st)
    (hfail : st.success = false) :
    (∀ l, (Policy.run p devOrDir policyPath fileListPfx options env).fst ≠ Except.ok l)
    ∧ (∀ rc, st.code = some rc →
      (Policy.run p devOrDir policyPath fileListPfx options env).fst
        = Except.error (RunError.ApplyPolicyFailed
            ("`mmapplypolicy` failed with exit status " ++ toString rc)))
    ∧ (st.code = none →
      (Policy.run p devOrDir policyPath fileListPfx options env).fst
        = Except.error (RunError.ApplyPolicyFailed ("`mmapplypolicy` failed"))) := by
  refine ⟨fun l hbad => ?_, fun rc hrc => ?_, fun hrc => ?_⟩
  · cases hcode : st.code with
    | some rc =>
      rw [run_failed_code p devOrDir policyPath fileListPfx options env st rc
        hv hc hw hs hwait hfail hcode] at hbad
      simp at hbad
    | none =>
      rw [run_failed_nocode p devOrDir policyPath fileListPfx options env st
        hv hc hw hs hwait hfail hcode] at hbad
      simp at hbad
  · have hmsg : ("`mmapplypolicy` failed with exit status " : String)
        = "`mmapplypolicy` failed" ++ " with exit status " := rfl
    rw [run_failed_code p devOrDir policyPath fileListPfx options env st rc
      hv hc hw hs hwait hfail hrc, hmsg, String.append_assoc]
  · rw [run_failed_nocode p devOrDir policyPath fileListPfx options env st
      hv hc hw hs hwait hfail hrc]

/-- Claim C9 (implicit): at report-derivation time, a prefix that is not a
directory and has no final component falls back to the policy's own name as
the stem: the path is the prefix with its file name set to the policy name
followed by the list suffix and the rule name. -/
theorem claim_C9 (p : Policy) (devOrDir : String) (policyPath : PathM) (q : PathM)
    (options : Options) (env : RunEnv) (st : ExitStatus)
    (hpre : env.isDirPre q = true) (hpost : env.isDirPost q = false)
    (hfile : q.fileName = none)
    (hc : env.createResult = none) (hw : env.writeResult = none)
    (hs : env.spawnResult = none) (hwait : env.waitResult = Except.ok st)
    (hsucc : st.success = true) :
    (Policy.run p devOrDir policyPath (some q) options env).fst
      = Except.ok ((externalListNames p.rules).map fun n =>
          q.withFileName (p.name.v ++ ".list." ++ n)) := by
  have hv : ((some q).map fun q' => !env.isDirPre q' && q'.fileName.isNone).getD false
      = false := by simp [hpre]
  rw [run_success p devOrDir policyPath (some q) options env st hv hc hw hs hwait hsucc]
  exact congrArg Except.ok (filterMap_reportFor_eq_map p.name.v (some q) env.isDirPost
    (fun n => q.withFileName (p.name.v ++ ".list." ++ n))
    (fun name => by simp [hpost, hfile]) p.rules)

/-- Claim C10 (implicit): with no configured information level the child's
standard output is left inherited (neither discarded nor redirected), and
the command line contains no information-level switch block at all. -/
theorem claim_C10 (p : Policy) (devOrDir : String) (policyPath : PathM)
    (fileListPfx : Option PathM) (options : Options) (env : RunEnv)
    (hv : (fileListPfx.map fun q => !env.isDirPre q && q.fileName.isNone).getD false = false)
    (hc : env.createResult = none) (hw : env.writeResult = none)
    (hl : options.information_level = none) :
    stdoutConfig options = StdoutCfg.inherit
    ∧ (Effect.spawn (buildArgs devOrDir policyPath fileListPfx options) StdoutCfg.inherit
        ∈ (Policy.run p devOrDir policyPath fileListPfx options env).snd)
    ∧ buildArgs devOrDir policyPath fileListPfx options
        = [Arg.str devOrDir, Arg.str ("-P"), Arg.path policyPath]
          ++ (match options.action with
              | some action => [Arg.str ("-I"), Arg.str action]
              | none => [])
          ++ (match options.choice_algorithm with
              | some c => [Arg.str ("--choice-algorithm"), Arg.str c]
              | none => [])
          ++ (match fileListPfx with
              | some q => [Arg.str ("-f"), Arg.path q]
              | none => [])
          ++ (match options.nodes with
              | some nodes => [Arg.str ("-N"), Arg.str nodes]
              | none => [])
          ++ (match options.local_work_dir with
              | some d => [Arg.str ("-s"), Arg.path d]
              | none => [])
          ++ (match options.global_work_dir with
              | some d => [Arg.str ("-g"), Arg.path d]
              | none => []) := by
  have hcfg : stdoutConfig options = StdoutCfg.inherit := by simp [stdoutConfig, hl]
  refine ⟨hcfg, ?_, ?_⟩
  · have hmem := spawn_mem_trace p devOrDir policyPath fileListPfx options env hv hc hw
    rwa [hcfg] at hmem
  · rw [buildArgs_eq_argsSpec]
    simp only [argsSpec, hl, List.append_assoc, List.nil_append, List.append_nil]
    cases fileListPfx <;> rfl

/-- Example policy used by the witnesses: one ExternalList rule and one
List rule. -/
def polW : Policy :=
  { name := Name.mk ("size"),
    rules :=
      [Rule.mk none (RuleType.ExternalList (Name.mk ("size")) (Exec.mk ("myscript"))),
       Rule.mk none (RuleType.List (Name.mk ("size")) (DirectoriesPlus.mk true)
         [Show.KbAllocated] none)] }

/-- An absolute two-component path used by the witnesses. -/
def dirW : PathM := PathM.mk true [Component.normal ("work"), Component.normal ("out")]

/-- A policy-file path used by the witnesses. -/
def ppathW : PathM := PathM.mk true [Component.normal ("work"), Component.normal ("p.txt")]

/-- The root path: absolute with no components, hence no file name. -/
def rootW : PathM := PathM.mk true []

/-- Environment where every step succeeds and every path is a directory. -/
def envOkW : RunEnv :=
  { isDirPre := fun _ => true, createResult := none, writeResult := none,
    spawnResult := none, waitResult := Except.ok (ExitStatus.mk true (some 0)),
    isDirPost := fun _ => true }

/-- Environment where no path is a directory at either query. -/
def envNoDirW : RunEnv :=
  { isDirPre := fun _ => false, createResult := none, writeResult := none,
    spawnResult := none, waitResult := Except.ok (ExitStatus.mk true (some 0)),
    isDirPost := fun _ => false }

/-- Environment where the directory vanishes while the process runs. -/
def envVanishW : RunEnv :=
  { isDirPre := fun _ => true, createResult := none, writeResult := none,
    spawnResult := none, waitResult := Except.ok (ExitStatus.mk true (some 0)),
    isDirPost := fun _ => false }

/-- Environment where the external process fails with exit status 2. -/
def envFailW : RunEnv :=
  { isDirPre := fun _ => true, createResult := none, writeResult := none,
    spawnResult := none, waitResult := Except.ok (ExitStatus.mk false (some 2)),
    isDirPost := fun _ => true }

/-- Options carrying only an information level of 2. -/
def optsLW : Options := { information_level := some ("2") }

theorem claim_C1_witness :
    ((some dirW : Option PathM) = none →
      (Policy.run polW ("dev") ppathW (some dirW) {} envOkW).fst = Except.ok [])
    ∧ (∀ q, (some dirW : Option PathM) = some q → envOkW.isDirPost q = true →
      (Policy.run polW ("dev") ppathW (some dirW) {} envOkW).fst
        = Except.ok ((externalListNames polW.rules).map fun n => q.join ("list." ++ n)))
    ∧ (∀ q stem, (some dirW : Option PathM) = some q → envOkW.isDirPost q = false →
        q.fileName = some stem →
      (Policy.run polW ("dev") ppathW (some dirW) {} envOkW).fst
        = Except.ok ((externalListNames polW.rules).map fun n =>
            q.withFileName (stem ++ ".list." ++ n))) :=
  claim_C1 polW ("dev") ppathW (some dirW) {} envOkW (ExitStatus.mk true (some 0))
    rfl rfl rfl rfl rfl rfl

theorem claim_C2_witness :
    (∀ q, (some rootW : Option PathM) = some q → envNoDirW.isDirPre q = false →
      q.fileName = none →
      Policy.run polW ("dev") ppathW (some rootW) {} envNoDirW
        = (Except.error (RunError.InvalidFileListPrefix
            ("prefix needs to be either an existing directory or have a file name component in its path")),
           []))
    ∧ (∀ q, (some rootW : Option PathM) = some q →
        (envNoDirW.isDirPre q = true ∨ q.fileName ≠ none) →
      ∀ s, (Policy.run polW ("dev") ppathW (some rootW) {} envNoDirW).fst
        ≠ Except.error (RunError.InvalidFileListPrefix s)) :=
  claim_C2 polW ("dev") ppathW (some rootW) {} envNoDirW

theorem claim_C7_witness :
    (stdoutConfig optsLW
      = if ("2" : String) = "0" then StdoutCfg.null else StdoutCfg.toStderr)
    ∧ (("2" : String) = "0" →
      Effect.spawn (buildArgs ("dev") ppathW (some dirW) optsLW) StdoutCfg.null
        ∈ (Policy.run polW ("dev") ppathW (some dirW) optsLW envOkW).snd)
    ∧ (("2" : String) ≠ "0" →
      Effect.spawn (buildArgs ("dev") ppathW (some dirW) optsLW) StdoutCfg.toStderr
        ∈ (Policy.run polW ("dev") ppathW (some dirW) optsLW envOkW).snd) :=
  claim_C7 polW ("dev") ppathW (some dirW) optsLW envOkW ("2") rfl rfl rfl rfl

theorem claim_C8_witness :
    (∀ l, (Policy.run polW ("dev") ppathW (some dirW) {} envFailW).fst ≠ Except.ok l)
    ∧ (∀ rc, (ExitStatus.mk false (some 2)).code = some rc →
      (Policy.run polW ("dev") ppathW (some dirW) {} envFailW).fst
        = Except.error (RunError.ApplyPolicyFailed
            ("`mmapplypolicy` failed with exit status " ++ toString rc)))
    ∧ ((ExitStatus.mk false (some 2)).code = none →
      (Policy.run polW ("dev") ppathW (some dirW) {} envFailW).fst
        = Except.error (RunError.ApplyPolicyFailed ("`mmapplypolicy` failed"))) :=
  claim_C8 polW ("dev") ppathW (some dirW) {} envFailW (ExitStatus.mk false (some 2))
    rfl rfl rfl rfl rfl rfl

theorem claim_C9_witness :
    (Policy.run polW ("dev") ppathW (some rootW) {} envVanishW).fst
      = Except.ok ((externalListNames polW.rules).map fun n =>
          rootW.withFileName (polW.name.v ++ ".list." ++ n)) :=
  claim_C9 polW ("dev") ppathW rootW {} envVanishW (ExitStatus.mk true (some 0))
    rfl rfl rfl rfl rfl rfl rfl rfl

theorem claim_C10_witness :
    stdoutConfig {} = StdoutCfg.inherit
    ∧ (Effect.spawn (buildArgs ("dev") ppathW (some dirW) {}) StdoutCfg.inherit
        ∈ (Policy.run polW ("dev") ppathW (some dirW) {} envOkW).snd)
    ∧ buildArgs ("dev") ppathW (some dirW) {}
        = [Arg.str ("dev"), Arg.str ("-P"), Arg.path ppathW]
          ++ (match ({} : Options).action with
              | some action => [Arg.str ("-I"), Arg.str action]
              | none => [])
          ++ (match ({} : Options).choice_algorithm with
              | some c => [Arg.str ("--choice-algorithm"), Arg.str c]
              | none => [])
          ++ (match (some dirW : Option PathM) with
              | some q => [Arg.str ("-f"), Arg.path q]
              | none => [])
          ++ (match ({} : Options).nodes with
              | some nodes => [Arg.str ("-N"), Arg.str nodes]
              | none => [])
          ++ (match ({} : Options).local_work_dir with
              | some d => [Arg.str ("-s"), Arg.path d]
              | none => [])
          ++ (match ({} : Options).global_work_dir with
              | some d => [Arg.str ("-g"), Arg.path d]
              | none => []) :=
  claim_C10 polW ("dev") ppathW (some dirW) {} envOkW rfl rfl rfl rfl

theorem claim_C5_witness :
    (("  DIRECTORIES_PLUS") ∈ (RuleType.List (Name.mk ("size"))
        (DirectoriesPlus.mk true) [] (some (Where.User 1000))).lines
      ↔ (DirectoriesPlus.mk true).v = true)
    ∧ (∀ w, (some (Where.User 1000) : Option Where) = some w →
        ("  WHERE " ++ w.render) ∈ (RuleType.List (Name.mk ("size"))
          (DirectoriesPlus.mk true) [] (some (Where.User 1000))).lines)
    ∧ ((some (Where.User 1000) : Option Where) = none →
        ∀ s, ("  WHERE " ++ s) ∉ (RuleType.List (Name.mk ("size"))
          (DirectoriesPlus.mk true) [] (some (Where.User 1000))).lines)
    ∧ (∀ g, Where.render (Where.Group g) = "GROUP_ID = " ++ toString g)
    ∧ (∀ u, Where.render (Where.User u) = "USER_ID = " ++ toString u) :=
  claim_C5 (Name.mk ("size")) (DirectoriesPlus.mk true) [] (some (Where.User 1000))

end Mmpolicy
